import Mathlib

/-!
Shallow embedding of the PastePal-OS zero-knowledge key-management core
(`internal/crypto/keys.go`, `internal/auth`, `internal/storage`,
`internal/core/app.go`, `internal/api/client.go`).

Machine bytes are `Fin 256`; Go byte slices are `List (Fin 256)`.  The
external library primitives (AES-GCM from `crypto/cipher`, base64 from
`encoding/base64`, PBKDF2 from `golang.org/x/crypto/pbkdf2`) are not part of
the repository; they are modelled as parameters bundled with the documented
contracts of those libraries (AEAD open-of-seal correctness, base64
decode-of-encode identity).  Randomness (nonces, generated keys) and I/O
outcomes (network responses, disk write/remove success) are explicit
parameters, so every definition is executable and the control flow of the
source is translated branch by branch.
-/

namespace PastePal

/-- A machine byte. -/
abbrev Byte := Fin 256

/-- A Go byte slice. -/
abbrev Bytes := List Byte

/-- Models Go's `[]byte(s)` conversion of a string: one byte per character
(reduced mod 256; faithful on the ASCII data the program handles). -/
def strBytes (s : String) : Bytes :=
  s.data.map (fun c => ⟨c.toNat % 256, Nat.mod_lt _ (by norm_num)⟩)

/-- Contract of Go's `cipher.NewGCM` AEAD: `seal key nonce plaintext`
produces ciphertext-plus-tag, `opn key nonce data` verifies and decrypts,
and opening a sealed message under the same key and nonce recovers it. -/
structure GCMScheme where
  gcmSeal : Bytes → Bytes → Bytes → Bytes
  gcmOpen : Bytes → Bytes → Bytes → Option Bytes
  open_of_seal : ∀ k n m, gcmOpen k n (gcmSeal k n m) = some m

/-- Contract of Go's `encoding/base64` StdEncoding: encoding then decoding
is the identity. -/
structure B64Scheme where
  enc : Bytes → String
  dec : String → Option Bytes
  dec_enc : ∀ bs, dec (enc bs) = some bs

/-- Type of Go's `pbkdf2.Key password salt iterations keyLen`. -/
abbrev PBKDF := Bytes → Bytes → Nat → Nat → Bytes

/-- `gcm.NonceSize()` for the standard GCM mode. -/
def nonceSize : Nat := 12

/-- `aes.NewCipher` succeeds exactly on 16, 24 or 32 byte keys. -/
def aesKeyOk (key : Bytes) : Bool :=
  (key.length == 16) || (key.length == 24) || (key.length == 32)

/-- `crypto.encrypt` (keys.go): AES-GCM seal with the fresh random `nonce`
(supplied here as a parameter) prepended to the sealed bytes. -/
def encrypt (g : GCMScheme) (data key nonce : Bytes) : Except String Bytes :=
  if aesKeyOk key then .ok (nonce ++ g.gcmSeal key nonce data)
  else .error "crypto/aes: invalid key size"

/-- `crypto.decrypt` (keys.go): rejects inputs shorter than the nonce size
with "malformed ciphertext", otherwise splits off the nonce and opens. -/
def decrypt (g : GCMScheme) (data key : Bytes) : Except String Bytes :=
  if aesKeyOk key then
    if data.length < nonceSize then .error "malformed ciphertext"
    else
      match g.gcmOpen key (data.take nonceSize) (data.drop nonceSize) with
      | some m => .ok m
      | none => .error "cipher: message authentication failed"
  else .error "crypto/aes: invalid key size"

/-- `crypto.normalizeEmail` (keys.go): prepends the domain string; despite
its comment it performs no lowercasing. -/
def normalizeEmail (email : String) : String :=
  "pastepal:" ++ email

/-- `crypto.DeriveKeyFromPassword` (keys.go): PBKDF2-SHA256, 100000
iterations, 32-byte output, salt `normalizeEmail email`. -/
def DeriveKeyFromPassword (pbkdf : PBKDF) (password email : String) : Bytes :=
  pbkdf (strBytes password) (strBytes (normalizeEmail email)) 100000 32

/-- `crypto.EncryptSymmetricKey` (keys.go). -/
def EncryptSymmetricKey (g : GCMScheme) (b64 : B64Scheme)
    (symmetricKey masterKey nonce : Bytes) : Except String String :=
  (encrypt g symmetricKey masterKey nonce).map b64.enc

/-- `crypto.DecryptSymmetricKey` (keys.go). -/
def DecryptSymmetricKey (g : GCMScheme) (b64 : B64Scheme)
    (encryptedKeyBase64 : String) (masterKey : Bytes) : Except String Bytes :=
  match b64.dec encryptedKeyBase64 with
  | none => .error "illegal base64 data"
  | some encryptedKey => decrypt g encryptedKey masterKey

/-- `crypto.EncryptData` (keys.go): rejects empty input, then encrypts and
base64-encodes. -/
def EncryptData (g : GCMScheme) (b64 : B64Scheme)
    (data key nonce : Bytes) : Except String String :=
  if data = [] then .error "no data to encrypt"
  else (encrypt g data key nonce).map b64.enc

/-- `crypto.DecryptData` (keys.go). -/
def DecryptData (g : GCMScheme) (b64 : B64Scheme)
    (encryptedDataBase64 : String) (key : Bytes) : Except String Bytes :=
  match b64.dec encryptedDataBase64 with
  | none => .error "illegal base64 data"
  | some encryptedData => decrypt g encryptedData key

/-- `auth.HashPasswordForServer`: PBKDF2 with the disjoint salt domain
`pastepal-auth:` and base64 text output. -/
def HashPasswordForServer (pbkdf : PBKDF) (b64 : B64Scheme)
    (password email : String) : String :=
  b64.enc (pbkdf (strBytes password) (strBytes ("pastepal-auth:" ++ email)) 100000 32)

/-- `auth.LoginUser`: derive the master key and open the envelope; every
decryption failure is collapsed into one generic error. -/
def LoginUser (pbkdf : PBKDF) (g : GCMScheme) (b64 : B64Scheme)
    (email password encryptedSymmetricKey : String) : Except String Bytes :=
  match DecryptSymmetricKey g b64 encryptedSymmetricKey
      (DeriveKeyFromPassword pbkdf password email) with
  | .error _ => .error "invalid credentials or corrupted key"
  | .ok symmetricKey => .ok symmetricKey

/-- Executable AEAD stand-in used to instantiate concrete runs: the "tag"
is the key and nonce prepended to the message, and opening checks it. -/
def toyGCM : GCMScheme where
  gcmSeal k n m := (k ++ n) ++ m
  gcmOpen k n c :=
    if c.take (k ++ n).length = k ++ n then some (c.drop (k ++ n).length) else none
  open_of_seal := by
    intro k n m
    show (if ((k ++ n) ++ m).take (k ++ n).length = k ++ n then
        some (((k ++ n) ++ m).drop (k ++ n).length) else none) = some m
    rw [if_pos (List.take_left _ _), List.drop_left]

/-- Inverse of the character embedding used by `toyB64`. -/
def toyCharByte (c : Char) : Byte :=
  ⟨c.toNat % 256, Nat.mod_lt _ (by norm_num)⟩

/-- Executable binary-to-text stand-in used to instantiate concrete runs:
each byte becomes one character. -/
def toyB64 : B64Scheme where
  enc bs := String.mk (bs.map fun b => Char.ofNat b.val)
  dec s := some (s.data.map toyCharByte)
  dec_enc := by
    intro bs
    refine congrArg some ?_
    show (bs.map fun b => Char.ofNat b.val).map toyCharByte = bs
    rw [List.map_map]
    have h : (toyCharByte ∘ fun b : Byte => Char.ofNat b.val) = id := by
      funext b
      have hv : (b : Nat).isValidChar := Or.inl (Nat.lt_trans b.isLt (by norm_num))
      apply Fin.ext
      simp [toyCharByte, Function.comp, Char.ofNat, hv, Char.toNat, Char.ofNatAux,
        UInt32.toNat, BitVec.toNat_ofNatLt, Nat.mod_eq_of_lt b.isLt]
    rw [h, List.map_id]

/-- Executable key-derivation stand-in used to instantiate concrete runs:
keeps the password and salt bytes, padded and cut to the key length. -/
def toyPBKDF (pw salt : Bytes) (_iterations keyLen : Nat) : Bytes :=
  (pw ++ salt ++ List.replicate keyLen 0).take keyLen

/-- `models.UserResponse`. -/
structure UserResponse where
  id : String
  email : String
deriving DecidableEq

/-- `models.LoginResponse`; `userID` is the backward-compatibility field. -/
structure LoginResponse where
  user : UserResponse
  authToken : String
  encryptedSymmetricKey : String
  userID : String
deriving DecidableEq

/-- `models.LoginRequest`. -/
structure LoginRequest where
  email : String
  passwordHash : String
deriving DecidableEq

/-- `models.User` (the fields the core mutates). -/
structure User where
  id : String
  email : String
  encryptedSymmetricKey : String
deriving DecidableEq

/-- `models.Paste` (the fields the core reads and writes). -/
structure Paste where
  id : String
  title : String
  content : String
  isPublic : Bool
deriving DecidableEq

/-- `models.CreatePasteRequest` (the fields the core fills). -/
structure CreatePasteRequest where
  title : String
  content : String
  isPublic : Bool
deriving DecidableEq

/-- `api.Client`: the piece of client state the core manipulates. -/
structure Client where
  authToken : String
deriving DecidableEq

/-- `core.PastePalApp`: the mutable session state. -/
structure AppState where
  client : Client
  currentUser : Option User
  symmetricKey : Option Bytes
  isLoggedIn : Bool
deriving DecidableEq

/-- The on-disk state `storage.LocalStorage` manages: the session marker
file, the remember-me credentials file, and locally saved pastes. -/
structure FS where
  sessionFile : Option String
  credentialsFile : Option (String × String)
  pastes : List Paste
deriving DecidableEq

/-- Outcomes of the fallible OS file operations, supplied as an oracle. -/
structure Disk where
  sessionWriteOk : Bool
  credsWriteOk : Bool
  pasteWriteOk : Bool
  removeOk : Bool
deriving DecidableEq

/-- `storage.SaveUserSession`: writes the `{email}` session marker. -/
def SaveUserSession (d : Disk) (fs : FS) (email : String) : Except String FS :=
  if d.sessionWriteOk then .ok { fs with sessionFile := some email }
  else .error "session write failed"

/-- `storage.SaveCredentials`: writes the `{email, passwordHash}` record
when remember-me is on; removes any existing record when it is off. -/
def SaveCredentials (d : Disk) (fs : FS) (email passwordHash : String)
    (rememberMe : Bool) : Except String FS :=
  if rememberMe = false then
    match fs.credentialsFile with
    | some _ =>
      if d.removeOk then .ok { fs with credentialsFile := none }
      else .error "credentials remove failed"
    | none => .ok fs
  else if d.credsWriteOk then
    .ok { fs with credentialsFile := some (email, passwordHash) }
  else .error "credentials write failed"

/-- `storage.GetSavedCredentials`. -/
def GetSavedCredentials (fs : FS) : Except String (String × String) :=
  match fs.credentialsFile with
  | none => .error "no saved credentials"
  | some (email, passwordHash) => .ok (email, passwordHash)

/-- `storage.ClearUserSession`: removes the session marker if present. -/
def ClearUserSession (d : Disk) (fs : FS) : Except String FS :=
  match fs.sessionFile with
  | some _ =>
    if d.removeOk then .ok { fs with sessionFile := none }
    else .error "session remove failed"
  | none => .ok fs

/-- `storage.SavePasteLocally`. -/
def SavePasteLocally (d : Disk) (fs : FS) (p : Paste) : Except String FS :=
  if d.pasteWriteOk then .ok { fs with pastes := fs.pastes ++ [p] }
  else .error "paste write failed"

/-- The remote server's login endpoint, as an oracle. -/
abbrev LoginServer := LoginRequest → Except String LoginResponse

/-- The remote server's create-paste endpoint, as an oracle. -/
abbrev PasteServer := CreatePasteRequest → Except String Paste

/-- `api.Client.Login` (client.go): forwards the request, validates that
the response carries a user id and an encrypted symmetric key, and installs
the response's auth token on success. -/
def ClientLogin (srv : LoginServer) (s : AppState) (req : LoginRequest) :
    Except String LoginResponse × AppState :=
  match srv req with
  | .error e => (.error e, s)
  | .ok resp =>
    if resp.user.id = "" ∨ resp.encryptedSymmetricKey = "" then
      (.error "invalid server response: missing required data", s)
    else if resp.authToken ≠ "" then
      (.ok resp, { s with client := { authToken := resp.authToken } })
    else (.ok resp, s)

/-- `auth.PrepareLoginRequest`. -/
def PrepareLoginRequest (pbkdf : PBKDF) (b64 : B64Scheme)
    (email password : String) : LoginRequest :=
  { email := email, passwordHash := HashPasswordForServer pbkdf b64 password email }

/-- `core.PastePalApp.Login` (app.go:75-149), branch by branch: note that
the auth token is installed before the envelope is opened, that the session
fields are committed before `SaveUserSession`, and that a credentials-save
failure is swallowed. -/
def Login (pbkdf : PBKDF) (g : GCMScheme) (b64 : B64Scheme) (srv : LoginServer)
    (d : Disk) (s : AppState) (fs : FS) (email password : String)
    (rememberMe : Bool) : Except String Unit × AppState × FS :=
  let loginReq := PrepareLoginRequest pbkdf b64 email password
  match ClientLogin srv s loginReq with
  | (.error e, s1) => (.error e, s1, fs)
  | (.ok resp, s1) =>
    let userID := if resp.user.id = "" then resp.userID else resp.user.id
    if userID = "" then (.error "invalid login response: no user ID", s1, fs)
    else
      let s2 := if resp.authToken ≠ "" then
          { s1 with client := { authToken := resp.authToken } } else s1
      if resp.encryptedSymmetricKey = "" then
        (.error "invalid login response: no encrypted symmetric key", s2, fs)
      else
        match LoginUser pbkdf g b64 email password resp.encryptedSymmetricKey with
        | .error e => (.error e, s2, fs)
        | .ok symmetricKey =>
          let s3 := { s2 with
            currentUser := some (User.mk userID email resp.encryptedSymmetricKey),
            symmetricKey := some symmetricKey,
            isLoggedIn := true }
          match SaveUserSession d fs email with
          | .error e => (.error e, s3, fs)
          | .ok fs1 =>
            if rememberMe then
              match SaveCredentials d fs1 email loginReq.passwordHash true with
              | .error _ => (.ok (), s3, fs1)
              | .ok fs2 => (.ok (), s3, fs2)
            else (.ok (), s3, fs1)

/-- `core.PastePalApp.AutoLogin` (app.go:152-221): replays the saved
credentials against the server and installs `[]byte(passwordHash)` as the
in-memory symmetric key. -/
def AutoLogin (srv : LoginServer) (d : Disk) (s : AppState) (fs : FS) :
    Bool × AppState × FS :=
  if s.isLoggedIn then (true, s, fs)
  else
    match GetSavedCredentials fs with
    | .error _ => (false, s, fs)
    | .ok (email, passwordHash) =>
      let loginReq : LoginRequest := { email := email, passwordHash := passwordHash }
      match ClientLogin srv s loginReq with
      | (.error _, s1) => (false, s1, fs)
      | (.ok resp, s1) =>
        let userID := if resp.user.id = "" then resp.userID else resp.user.id
        if userID = "" then (false, s1, fs)
        else
          let s2 := if resp.authToken ≠ "" then
              { s1 with client := { authToken := resp.authToken } } else s1
          let symmetricKey := strBytes passwordHash
          let s3 := { s2 with
            currentUser := some (User.mk userID email resp.encryptedSymmetricKey),
            symmetricKey := some symmetricKey,
            isLoggedIn := true }
          match SaveUserSession d fs email with
          | .error _ => (false, s3, fs)
          | .ok fs1 => (true, s3, fs1)

/-- `core.PastePalApp.Logout` (app.go:224-236): clears the in-memory
session unconditionally, then clears the on-disk session marker and
returns that operation's result. -/
def Logout (d : Disk) (s : AppState) (fs : FS) :
    Except String Unit × AppState × FS :=
  let s1 := { s with client := { authToken := "" }, currentUser := none,
                     symmetricKey := none, isLoggedIn := false }
  match ClearUserSession d fs with
  | .error e => (.error e, s1, fs)
  | .ok fs1 => (.ok (), s1, fs1)

/-- Observable side effects of an operation, in order. -/
inductive Effect where
  | encryption : Effect
  | networkCall : String → Effect
  | diskWrite : Effect
deriving DecidableEq

/-- `core.PastePalApp.CreatePaste` (app.go:239-278): requires a live
session, encrypts title and content independently, sends the request, and
saves the paste locally (ignoring local-save failure).  The effect list
records every encryption, network and disk operation performed. -/
def CreatePaste (g : GCMScheme) (b64 : B64Scheme) (srv : PasteServer) (d : Disk)
    (s : AppState) (fs : FS) (title content : String) (isPublic : Bool)
    (n1 n2 : Bytes) : Except String Paste × AppState × FS × List Effect :=
  if s.isLoggedIn = false then (.error "not logged in", s, fs, [])
  else
    let key := s.symmetricKey.getD []
    match EncryptData g b64 (strBytes title) key n1 with
    | .error e => (.error e, s, fs, [.encryption])
    | .ok encryptedTitle =>
      match EncryptData g b64 (strBytes content) key n2 with
      | .error e => (.error e, s, fs, [.encryption, .encryption])
      | .ok encryptedContent =>
        match srv { title := encryptedTitle, content := encryptedContent,
                    isPublic := isPublic } with
        | .error e =>
          (.error e, s, fs, [.encryption, .encryption, .networkCall "createPaste"])
        | .ok paste =>
          match SavePasteLocally d fs paste with
          | .error _ =>
            (.ok paste, s, fs,
             [.encryption, .encryption, .networkCall "createPaste", .diskWrite])
          | .ok fs1 =>
            (.ok paste, s, fs1,
             [.encryption, .encryption, .networkCall "createPaste", .diskWrite])

/-- Lower-casing of a string, written from the spec's words ("the
lower-cased email") for comparison with `normalizeEmail`. -/
def lowercaseStr (s : String) : String :=
  String.mk (s.data.map Char.toLower)

/-- A freshly constructed application state (`NewApp`): logged out, no
key material, empty auth token. -/
def demoState : AppState :=
  { client := { authToken := "" }, currentUser := none,
    symmetricKey := none, isLoggedIn := false }

/-- An empty local storage. -/
def demoFS : FS :=
  { sessionFile := none, credentialsFile := none, pastes := [] }

/-- Local storage holding saved remember-me credentials. -/
def demoCredFS : FS :=
  { sessionFile := none, credentialsFile := some ("a@x.com", "hash"),
    pastes := [] }

/-- A disk on which every file operation succeeds. -/
def demoDiskOk : Disk :=
  { sessionWriteOk := true, credsWriteOk := true, pasteWriteOk := true,
    removeOk := true }

/-- A disk on which writing the session marker fails. -/
def demoDiskNoSession : Disk :=
  { sessionWriteOk := false, credsWriteOk := true, pasteWriteOk := true,
    removeOk := true }

/-- A content key of 32 bytes. -/
def demoContentKey : Bytes := List.replicate 32 7

/-- A 12-byte nonce. -/
def demoNonce : Bytes := List.replicate 12 0

/-- The sealed content key the server would store for user `a@x.com` with
password `pw` under the toy primitives. -/
def demoSealedKey : String :=
  toyB64.enc (demoNonce ++
    toyGCM.gcmSeal (DeriveKeyFromPassword toyPBKDF "pw" "a@x.com") demoNonce
      demoContentKey)

/-- A server that accepts any login, returning a user id, an auth token and
the sealed content key. -/
def demoServer : LoginServer := fun _ =>
  .ok { user := { id := "u1", email := "a@x.com" }, authToken := "tok",
        encryptedSymmetricKey := demoSealedKey, userID := "" }

/-- A server that rejects every login. -/
def demoFailServer : LoginServer := fun _ =>
  .error "authentication failed"

/-- A server that stores any paste it is sent under the id `p1`. -/
def demoPasteServer : PasteServer := fun req =>
  .ok { id := "p1", title := req.title, content := req.content,
        isPublic := req.isPublic }

/-- The session state `AutoLogin` reaches from `demoState` and `demoCredFS`
against `demoServer`. -/
def c1ExpectedState : AppState :=
  { client := { authToken := "tok" },
    currentUser := some (User.mk "u1" "a@x.com" demoSealedKey),
    symmetricKey := some (strBytes "hash"), isLoggedIn := true }

/-- The local storage `AutoLogin` leaves behind in that run. -/
def c1ExpectedFS : FS :=
  { sessionFile := some "a@x.com",
    credentialsFile := some ("a@x.com", "hash"), pastes := [] }

theorem strBytes_ne_nil {s : String} (h : s ≠ "") : strBytes s ≠ [] := by
  intro hmap
  apply h
  have hd : s.data = [] := List.map_eq_nil_iff.mp hmap
  cases s with
  | mk data => simp only at hd; simp [hd]

theorem aesKeyOk_of_len32 {key : Bytes} (h : key.length = 32) :
    aesKeyOk key = true := by
  simp [aesKeyOk, h]

theorem decrypt_of_encrypt (g : GCMScheme) (data key nonce : Bytes)
    (hk : aesKeyOk key = true) (hn : nonce.length = nonceSize) :
    decrypt g (nonce ++ g.gcmSeal key nonce data) key = .ok data := by
  have h1 : ¬ (nonce ++ g.gcmSeal key nonce data).length < nonceSize := by
    simp [List.length_append, hn]
  have h2 : (nonce ++ g.gcmSeal key nonce data).take nonceSize = nonce :=
    List.take_left' hn
  have h3 : (nonce ++ g.gcmSeal key nonce data).drop nonceSize =
      g.gcmSeal key nonce data :=
    List.drop_left' hn
  simp only [decrypt, hk, if_true, if_neg h1, h2, h3, g.open_of_seal]

theorem encryptData_roundtrip (g : GCMScheme) (b64 : B64Scheme)
    (data key nonce : Bytes) (hd : data ≠ []) (hk : aesKeyOk key = true)
    (hn : nonce.length = nonceSize) :
    ∃ ct, EncryptData g b64 data key nonce = .ok ct ∧
      DecryptData g b64 ct key = .ok data := by
  refine ⟨b64.enc (nonce ++ g.gcmSeal key nonce data), ?_, ?_⟩
  · simp [EncryptData, hd, encrypt, hk, Except.map]
  · simp [DecryptData, b64.dec_enc, decrypt_of_encrypt g data key nonce hk hn]

/-- C3: the claim says the PBKDF2 salt is a fixed domain string followed by
the lower-cased email, making key derivation insensitive to the email's
letter case.  Evaluated at the failing input `A@X.com`: `normalizeEmail`
keeps the case (contradicting its own comment), so the salt differs from
the lower-cased one and the derived keys differ across case variants. -/
theorem claim_C3_salt_not_lowercased :
    normalizeEmail "A@X.com" = "pastepal:A@X.com" ∧
    normalizeEmail "A@X.com" ≠ "pastepal:" ++ lowercaseStr "A@X.com" ∧
    DeriveKeyFromPassword toyPBKDF "pw" "A@X.com" ≠
      DeriveKeyFromPassword toyPBKDF "pw" (lowercaseStr "A@X.com") := by
  refine ⟨rfl, ?_, ?_⟩ <;> decide

/-- C4: envelope round-trip — for every password/email pair and every
32-byte content key, decrypting `EncryptSymmetricKey` of the key under the
derived master key with `DecryptSymmetricKey` under the same master key
returns exactly the key. -/
theorem claim_C4_envelope_roundtrip (pbkdf : PBKDF) (g : GCMScheme)
    (b64 : B64Scheme) (password email : String) (k nonce : Bytes)
    (_hk : k.length = 32)
    (hmk : (DeriveKeyFromPassword pbkdf password email).length = 32)
    (hn : nonce.length = nonceSize) :
    ∃ sealed,
      EncryptSymmetricKey g b64 k (DeriveKeyFromPassword pbkdf password email)
        nonce = .ok sealed ∧
      DecryptSymmetricKey g b64 sealed
        (DeriveKeyFromPassword pbkdf password email) = .ok k := by
  have hok := aesKeyOk_of_len32 hmk
  refine ⟨b64.enc (nonce ++
    g.gcmSeal (DeriveKeyFromPassword pbkdf password email) nonce k), ?_, ?_⟩
  · simp [EncryptSymmetricKey, encrypt, hok, Except.map]
  · simp [DecryptSymmetricKey, b64.dec_enc, decrypt_of_encrypt _ _ _ _ hok hn]

/-- C4 witness: the round-trip evaluated at a concrete password, email,
content key and nonce. -/
theorem claim_C4_witness :
    demoContentKey.length = 32 ∧
    (DeriveKeyFromPassword toyPBKDF "pw" "a@x.com").length = 32 ∧
    demoNonce.length = nonceSize ∧
    (∃ sealed,
      EncryptSymmetricKey toyGCM toyB64 demoContentKey
        (DeriveKeyFromPassword toyPBKDF "pw" "a@x.com") demoNonce = .ok sealed ∧
      DecryptSymmetricKey toyGCM toyB64 sealed
        (DeriveKeyFromPassword toyPBKDF "pw" "a@x.com") = .ok demoContentKey) :=
  ⟨by decide, by decide, by decide,
   claim_C4_envelope_roundtrip toyPBKDF toyGCM toyB64 "pw" "a@x.com"
     demoContentKey demoNonce (by decide) (by decide) (by decide)⟩

/-- C5: content round-trip — for every 32-byte content key and non-empty
title and body, the two payloads produced by encrypting each field
independently with `EncryptData` decrypt back to the original fields (as
their byte representations) with `DecryptData` under the same key. -/
theorem claim_C5_content_roundtrip (g : GCMScheme) (b64 : B64Scheme)
    (k n1 n2 : Bytes) (title content : String)
    (hk : k.length = 32) (hn1 : n1.length = nonceSize)
    (hn2 : n2.length = nonceSize) (ht : title ≠ "") (hc : content ≠ "") :
    ∃ ct cc,
      EncryptData g b64 (strBytes title) k n1 = .ok ct ∧
      EncryptData g b64 (strBytes content) k n2 = .ok cc ∧
      DecryptData g b64 ct k = .ok (strBytes title) ∧
      DecryptData g b64 cc k = .ok (strBytes content) := by
  have hok := aesKeyOk_of_len32 hk
  obtain ⟨ct, hct, hct'⟩ :=
    encryptData_roundtrip g b64 (strBytes title) k n1 (strBytes_ne_nil ht) hok hn1
  obtain ⟨cc, hcc, hcc'⟩ :=
    encryptData_roundtrip g b64 (strBytes content) k n2 (strBytes_ne_nil hc) hok hn2
  exact ⟨ct, cc, hct, hcc, hct', hcc'⟩

/-- C5 witness: the content round-trip evaluated at a concrete key, nonces,
title and body. -/
theorem claim_C5_witness :
    demoContentKey.length = 32 ∧ demoNonce.length = nonceSize ∧
    ("T" : String) ≠ "" ∧ ("C" : String) ≠ "" ∧
    (∃ ct cc,
      EncryptData toyGCM toyB64 (strBytes "T") demoContentKey demoNonce = .ok ct ∧
      EncryptData toyGCM toyB64 (strBytes "C") demoContentKey demoNonce = .ok cc ∧
      DecryptData toyGCM toyB64 ct demoContentKey = .ok (strBytes "T") ∧
      DecryptData toyGCM toyB64 cc demoContentKey = .ok (strBytes "C")) :=
  ⟨by decide, by decide, by decide, by decide,
   claim_C5_content_roundtrip toyGCM toyB64 demoContentKey demoNonce demoNonce
     "T" "C" (by decide) (by decide) (by decide) (by decide) (by decide)⟩

/-- C6: for every key and input, if the decoded input is shorter than the
nonce size (12 bytes) or tag verification fails, `decrypt` returns an
error — it never returns plaintext for truncated or tampered input. -/
theorem claim_C6_decrypt_rejects (g : GCMScheme) (key data : Bytes)
    (h : data.length < nonceSize ∨
      g.gcmOpen key (data.take nonceSize) (data.drop nonceSize) = none) :
    ∃ e, decrypt g data key = .error e := by
  cases hk : aesKeyOk key with
  | false => exact ⟨"crypto/aes: invalid key size", by simp [decrypt, hk]⟩
  | true =>
    by_cases hl : data.length < nonceSize
    · exact ⟨"malformed ciphertext", by simp [decrypt, hk, hl]⟩
    · rcases h with h | h
      · exact absurd h hl
      · exact ⟨"cipher: message authentication failed",
          by simp [decrypt, hk, hl, h]⟩

/-- C6 witness: a three-byte input is shorter than the nonce size and is
rejected. -/
theorem claim_C6_witness :
    (([1, 2, 3] : Bytes).length < nonceSize ∨
      toyGCM.gcmOpen demoContentKey (([1, 2, 3] : Bytes).take nonceSize)
        (([1, 2, 3] : Bytes).drop nonceSize) = none) ∧
    ∃ e, decrypt toyGCM [1, 2, 3] demoContentKey = .error e :=
  ⟨Or.inl (by decide),
   claim_C6_decrypt_rejects toyGCM demoContentKey [1, 2, 3] (Or.inl (by decide))⟩

/-- C8: encrypting an empty byte string returns the no-data-to-encrypt
error for every key, and a non-empty input never produces that error. -/
theorem claim_C8_empty_input (g : GCMScheme) (b64 : B64Scheme)
    (key nonce : Bytes) :
    EncryptData g b64 [] key nonce = .error "no data to encrypt" ∧
    ∀ data : Bytes, data ≠ [] →
      EncryptData g b64 data key nonce ≠ .error "no data to encrypt" := by
  constructor
  · simp [EncryptData]
  · intro data hd
    unfold EncryptData
    rw [if_neg hd]
    unfold encrypt
    cases hk : aesKeyOk key <;> simp [Except.map]

/-- C8 witness: the empty-input error and its absence on a one-byte input,
evaluated at a concrete key and nonce. -/
theorem claim_C8_witness :
    EncryptData toyGCM toyB64 [] demoContentKey demoNonce =
      .error "no data to encrypt" ∧
    ([(5 : Byte)] ≠ ([] : Bytes)) ∧
    EncryptData toyGCM toyB64 [5] demoContentKey demoNonce ≠
      .error "no data to encrypt" :=
  ⟨(claim_C8_empty_input toyGCM toyB64 demoContentKey demoNonce).1,
   by decide,
   (claim_C8_empty_input toyGCM toyB64 demoContentKey demoNonce).2 [5] (by decide)⟩

/-- C7: calling `CreatePaste` while not logged in fails with the
not-authenticated error, performs no network call and no encryption, and
leaves the application state (including the API client) and the local
storage unchanged. -/
theorem claim_C7_requires_session (g : GCMScheme) (b64 : B64Scheme)
    (srv : PasteServer) (d : Disk) (s : AppState) (fs : FS)
    (title content : String) (isPublic : Bool) (n1 n2 : Bytes)
    (h : s.isLoggedIn = false) :
    CreatePaste g b64 srv d s fs title content isPublic n1 n2 =
      (.error "not logged in", s, fs, []) := by
  simp [CreatePaste, h]

/-- C7 witness: a concrete logged-out state. -/
theorem claim_C7_witness :
    demoState.isLoggedIn = false ∧
    CreatePaste toyGCM toyB64 demoPasteServer demoDiskOk demoState demoFS
      "T" "C" false demoNonce demoNonce =
      (.error "not logged in", demoState, demoFS, []) :=
  ⟨rfl, claim_C7_requires_session toyGCM toyB64 demoPasteServer demoDiskOk
    demoState demoFS "T" "C" false demoNonce demoNonce rfl⟩

/-- C9: after `Logout` returns — with or without an error from clearing
the on-disk session marker — the in-memory session is unconditionally
cleared: no current user, no symmetric key, not logged in, and the API
client's auth token is the empty string. -/
theorem claim_C9_logout_clears (d : Disk) (s : AppState) (fs : FS) :
    (Logout d s fs).2.1.currentUser = none ∧
    (Logout d s fs).2.1.symmetricKey = none ∧
    (Logout d s fs).2.1.isLoggedIn = false ∧
    (Logout d s fs).2.1.client.authToken = "" := by
  unfold Logout
  cases h : ClearUserSession d fs <;> simp [h]

theorem logout_fs_effects (d : Disk) (s : AppState) (fs : FS) :
    (Logout d s fs).2.2.credentialsFile = fs.credentialsFile ∧
    (Logout d s fs).2.2.pastes = fs.pastes ∧
    ((Logout d s fs).2.2.sessionFile = none ∨
     (Logout d s fs).2.2.sessionFile = fs.sessionFile) := by
  unfold Logout ClearUserSession
  cases hs : fs.sessionFile with
  | none => simp [hs]
  | some e => cases hr : d.removeOk <;> simp [hs, hr]

/-- C10: `Logout` never removes or modifies the saved remember-me
credentials — a pair stored by `SaveCredentials` with remember-me on is
still returned by `GetSavedCredentials` after `Logout`, and `Logout`'s only
on-disk effect is (at most) removing the session marker file. -/
theorem claim_C10_logout_keeps_credentials (d d2 : Disk) (s : AppState)
    (fs fs1 : FS) (email passwordHash : String)
    (hsave : SaveCredentials d fs email passwordHash true = .ok fs1) :
    GetSavedCredentials (Logout d2 s fs1).2.2 = .ok (email, passwordHash) ∧
    (Logout d2 s fs1).2.2.credentialsFile = fs1.credentialsFile ∧
    (Logout d2 s fs1).2.2.pastes = fs1.pastes ∧
    ((Logout d2 s fs1).2.2.sessionFile = none ∨
     (Logout d2 s fs1).2.2.sessionFile = fs1.sessionFile) := by
  have hc : fs1.credentialsFile = some (email, passwordHash) := by
    unfold SaveCredentials at hsave
    simp only [Bool.true_eq_false, if_false] at hsave
    cases hw : d.credsWriteOk <;> rw [hw] at hsave <;> simp at hsave
    rw [← hsave]
  obtain ⟨h1, h2, h3⟩ := logout_fs_effects d2 s fs1
  refine ⟨?_, h1, h2, h3⟩
  unfold GetSavedCredentials
  rw [h1, hc]

/-- C10 witness: save a concrete pair, log out on a disk where the removal
succeeds, and the pair is still there. -/
theorem claim_C10_witness :
    SaveCredentials demoDiskOk demoFS "a@x.com" "hash" true = .ok demoCredFS ∧
    GetSavedCredentials (Logout demoDiskOk demoState demoCredFS).2.2 =
      .ok ("a@x.com", "hash") :=
  ⟨by rfl,
   (claim_C10_logout_keeps_credentials demoDiskOk demoDiskOk demoState demoFS
     demoCredFS "a@x.com" "hash" (by rfl)).1⟩

/-- C1: when `AutoLogin` succeeds from saved credentials (starting logged
out), the symmetric key it installs in the session is the byte
representation of the stored base64 authentication-hash string — not the
content key sealed at registration. -/
theorem claim_C1_autologin_installs_hash (srv : LoginServer) (d : Disk)
    (s : AppState) (fs : FS) (email passwordHash : String) (s' : AppState)
    (fs' : FS) (hlo : s.isLoggedIn = false)
    (hcred : fs.credentialsFile = some (email, passwordHash))
    (hrun : AutoLogin srv d s fs = (true, s', fs')) :
    s'.symmetricKey = some (strBytes passwordHash) := by
  unfold AutoLogin at hrun
  rw [hlo] at hrun
  simp only [Bool.false_eq_true, if_false, GetSavedCredentials, hcred] at hrun
  rcases hcl : ClientLogin srv s ⟨email, passwordHash⟩ with ⟨res, s1⟩
  rw [hcl] at hrun
  cases res with
  | error e => simp at hrun
  | ok resp =>
    simp only [] at hrun
    cases hw : d.sessionWriteOk
    · have hS : SaveUserSession d fs email = .error "session write failed" := by
        simp [SaveUserSession, hw]
      rw [hS] at hrun
      dsimp only [] at hrun
      have hfst := congrArg Prod.fst hrun
      simp [apply_ite] at hfst
    · have hS : SaveUserSession d fs email =
          .ok { fs with sessionFile := some email } := by
        simp [SaveUserSession, hw]
      rw [hS] at hrun
      dsimp only [] at hrun
      by_cases hid : (if resp.user.id = "" then resp.userID else resp.user.id) = ""
      · rw [if_pos hid] at hrun
        simp at hrun
      · rw [if_neg hid] at hrun
        have h2 := congrArg (fun t => t.2.1.symmetricKey) hrun
        dsimp only [] at h2
        exact h2.symm

theorem clientLogin_preserves (srv : LoginServer) (s : AppState)
    (req : LoginRequest) :
    (ClientLogin srv s req).2.currentUser = s.currentUser ∧
    (ClientLogin srv s req).2.symmetricKey = s.symmetricKey ∧
    (ClientLogin srv s req).2.isLoggedIn = s.isLoggedIn := by
  unfold ClientLogin
  cases h : srv req with
  | error e => simp
  | ok resp =>
    by_cases h1 : resp.user.id = "" ∨ resp.encryptedSymmetricKey = ""
    · simp [h1]
    · by_cases h2 : resp.authToken = "" <;> simp [h1, h2]

/-- C2 counterexample: a concrete failing `Login` run — the server accepts
and returns an auth token and a valid envelope, but writing the local
session marker fails.  `Login` returns an error, yet the state is fully
logged in: the symmetric key and user are retained and the auth token is
installed, contradicting the claim that any failure leaves the state
logged out with nothing retained. -/
theorem claim_C2_counterexample :
    (Login toyPBKDF toyGCM toyB64 demoServer demoDiskNoSession demoState
      demoFS "a@x.com" "pw" false).1 = .error "session write failed" ∧
    (Login toyPBKDF toyGCM toyB64 demoServer demoDiskNoSession demoState
      demoFS "a@x.com" "pw" false).2.1.isLoggedIn = true ∧
    (Login toyPBKDF toyGCM toyB64 demoServer demoDiskNoSession demoState
      demoFS "a@x.com" "pw" false).2.1.symmetricKey = some demoContentKey ∧
    (Login toyPBKDF toyGCM toyB64 demoServer demoDiskNoSession demoState
      demoFS "a@x.com" "pw" false).2.1.currentUser =
      some (User.mk "u1" "a@x.com" demoSealedKey) ∧
    (Login toyPBKDF toyGCM toyB64 demoServer demoDiskNoSession demoState
      demoFS "a@x.com" "pw" false).2.1.client.authToken = "tok" :=
  ⟨rfl, rfl, rfl, rfl, rfl⟩

/-- C2 (amended): if `Login` fails, then either the failure came at or
before opening the envelope — the session fields stay logged out (no user,
no key, not logged in), though an auth token delivered by the server may
already be installed in the API client — or the local session save failed
after the envelope opened, in which case the error is returned with the
session fully established. -/
theorem claim_C2_login_failure_state (pbkdf : PBKDF) (g : GCMScheme)
    (b64 : B64Scheme) (srv : LoginServer) (d : Disk) (s : AppState) (fs : FS)
    (email password : String) (rememberMe : Bool) (e : String)
    (s' : AppState) (fs' : FS)
    (hcu : s.currentUser = none) (hsk : s.symmetricKey = none)
    (hli : s.isLoggedIn = false)
    (hrun : Login pbkdf g b64 srv d s fs email password rememberMe =
      (.error e, s', fs')) :
    (s'.currentUser = none ∧ s'.symmetricKey = none ∧ s'.isLoggedIn = false) ∨
    (d.sessionWriteOk = false ∧ s'.isLoggedIn = true ∧
     s'.symmetricKey ≠ none ∧ s'.currentUser ≠ none) := by
  unfold Login at hrun
  dsimp only [] at hrun
  rcases hcl : ClientLogin srv s (PrepareLoginRequest pbkdf b64 email password)
    with ⟨res, s1⟩
  rw [hcl] at hrun
  obtain ⟨p1, p2, p3⟩ :=
    clientLogin_preserves srv s (PrepareLoginRequest pbkdf b64 email password)
  rw [hcl] at p1 p2 p3
  dsimp only [] at p1 p2 p3
  cases res with
  | error e0 =>
    refine Or.inl ?_
    have hstate := congrArg (fun t => t.2.1) hrun
    dsimp only [] at hstate
    rw [← hstate]
    exact ⟨p1.trans hcu, p2.trans hsk, p3.trans hli⟩
  | ok resp =>
    dsimp only [] at hrun
    by_cases hid : (if resp.user.id = "" then resp.userID else resp.user.id) = ""
    · rw [if_pos hid] at hrun
      refine Or.inl ?_
      have hstate := congrArg (fun t => t.2.1) hrun
      dsimp only [] at hstate
      rw [← hstate]
      exact ⟨p1.trans hcu, p2.trans hsk, p3.trans hli⟩
    · rw [if_neg hid] at hrun
      by_cases hesk : resp.encryptedSymmetricKey = ""
      · rw [if_pos hesk] at hrun
        refine Or.inl ?_
        have hstate := congrArg (fun t => t.2.1) hrun
        dsimp only [] at hstate
        rw [← hstate]
        refine ⟨?_, ?_, ?_⟩ <;> by_cases hat : resp.authToken ≠ "" <;>
          simp [hat, p1, p2, p3, hcu, hsk, hli]
      · rw [if_neg hesk] at hrun
        cases hLU : LoginUser pbkdf g b64 email password
            resp.encryptedSymmetricKey with
        | error e0 =>
          rw [hLU] at hrun
          dsimp only [] at hrun
          refine Or.inl ?_
          have hstate := congrArg (fun t => t.2.1) hrun
          dsimp only [] at hstate
          rw [← hstate]
          refine ⟨?_, ?_, ?_⟩ <;> by_cases hat : resp.authToken ≠ "" <;>
            simp [hat, p1, p2, p3, hcu, hsk, hli]
        | ok symKey =>
          rw [hLU] at hrun
          dsimp only [] at hrun
          cases hw : d.sessionWriteOk
          · have hS : SaveUserSession d fs email =
                .error "session write failed" := by
              simp [SaveUserSession, hw]
            rw [hS] at hrun
            dsimp only [] at hrun
            refine Or.inr ?_
            have hstate := congrArg (fun t => t.2.1) hrun
            dsimp only [] at hstate
            rw [← hstate]
            exact ⟨rfl, rfl, by simp, by simp⟩
          · have hS : SaveUserSession d fs email =
                .ok { fs with sessionFile := some email } := by
              simp [SaveUserSession, hw]
            rw [hS] at hrun
            dsimp only [] at hrun
            cases hrm : rememberMe
            · rw [hrm] at hrun
              simp only [Bool.false_eq_true, if_false] at hrun
              exact absurd (congrArg Prod.fst hrun) (by simp)
            · rw [hrm] at hrun
              simp only [if_true] at hrun
              cases hSC : SaveCredentials d { fs with sessionFile := some email }
                  email (PrepareLoginRequest pbkdf b64 email password).passwordHash
                  true with
              | error e1 =>
                rw [hSC] at hrun
                dsimp only [] at hrun
                exact absurd (congrArg Prod.fst hrun) (by simp)
              | ok fs2 =>
                rw [hSC] at hrun
                dsimp only [] at hrun
                exact absurd (congrArg Prod.fst hrun) (by simp)

/-- C2 witness: a login rejected by the server leaves the fresh state
logged out with nothing retained. -/
theorem claim_C2_witness :
    demoState.currentUser = none ∧ demoState.symmetricKey = none ∧
    demoState.isLoggedIn = false ∧
    Login toyPBKDF toyGCM toyB64 demoFailServer demoDiskOk demoState demoFS
      "a@x.com" "pw" false =
      (.error "authentication failed", demoState, demoFS) ∧
    ((demoState.currentUser = none ∧ demoState.symmetricKey = none ∧
      demoState.isLoggedIn = false) ∨
     (demoDiskOk.sessionWriteOk = false ∧ demoState.isLoggedIn = true ∧
      demoState.symmetricKey ≠ none ∧ demoState.currentUser ≠ none)) :=
  ⟨rfl, rfl, rfl, by rfl,
   claim_C2_login_failure_state toyPBKDF toyGCM toyB64 demoFailServer demoDiskOk
     demoState demoFS "a@x.com" "pw" false "authentication failed" demoState
     demoFS rfl rfl rfl (by rfl)⟩

/-- C1 witness: a concrete auto-login against an accepting server installs
exactly the bytes of the stored hash string as the session key. -/
theorem claim_C1_witness :
    demoState.isLoggedIn = false ∧
    demoCredFS.credentialsFile = some ("a@x.com", "hash") ∧
    AutoLogin demoServer demoDiskOk demoState demoCredFS =
      (true, c1ExpectedState, c1ExpectedFS) ∧
    c1ExpectedState.symmetricKey = some (strBytes "hash") :=
  ⟨rfl, rfl, by decide,
   claim_C1_autologin_installs_hash demoServer demoDiskOk demoState demoCredFS
     "a@x.com" "hash" c1ExpectedState c1ExpectedFS rfl rfl (by decide)⟩

end PastePal
